import Mathlib

/-!
Verification of the top-workplaces aggregation service
(`src/scripts/top-workplaces.ts`).

The service fetches a workplace collection and a shift collection, counts
shifts per `workplaceId`, joins the counts against the workplaces, sorts the
joined sequence by count descending with a stable sort, and returns the first
three entries.  We embed the aggregation pipeline shallowly: JavaScript arrays
become `List`, the `Record<string, number>` accumulator becomes a partial map
`String → Option Nat` (a missing key reads as `undefined`, and the source's
`x || 0` idiom becomes `Option.getD _ 0`), and the ES2019-stable
`Array.prototype.sort` with comparator `(a, b) => b.shifts - a.shifts` becomes
`List.insertionSort` with the relation `b.shifts ≤ a.shifts`, a stable sort
that agrees with that comparator.
-/

namespace TopWorkplacesService

/-- `interface Workplace { id: string; name: string }`. -/
structure Workplace where
  id : String
  name : String
deriving DecidableEq, Repr

/-- `interface Shift { workplaceId: string; workerId: string }`. -/
structure Shift where
  workplaceId : String
  workerId : String
deriving DecidableEq, Repr

/-- `interface TopWorkPlaces { name: string; shifts: number }`.  Counts are
produced only by incrementing from zero, hence `Nat`. -/
structure TopWorkPlaces where
  name : String
  shifts : Nat
deriving DecidableEq, Repr

/-- The `Record<string, number>` built by `countShifts`: a key that was never
assigned reads as `undefined`, i.e. `none`. -/
abbrev ShiftRecord := String → Option Nat

/-- The body of the `reduce` in `countShifts`, traversing the shift list left
to right: `acc[workplaceId] = (acc[workplaceId] || 0) + 1`. -/
def countShiftsAux (acc : ShiftRecord) : List Shift → ShiftRecord
  | [] => acc
  | s :: rest =>
      countShiftsAux
        (fun k => if k = s.workplaceId then some ((acc s.workplaceId).getD 0 + 1) else acc k)
        rest

/-- `countShifts(shifts)`: the reduce starts from the empty record `{}`. -/
def countShifts (shifts : List Shift) : ShiftRecord :=
  countShiftsAux (fun _ => none) shifts

/-- The body of the `.map` in `getTopThreeWorkplaces`:
`({ id, name }) => ({ name, shifts: shiftCounts[id] || 0 })`. -/
def rankWorkplace (shiftCounts : ShiftRecord) (w : Workplace) : TopWorkPlaces :=
  { name := w.name, shifts := (shiftCounts w.id).getD 0 }

/-- The ordering decided by the comparator `(a, b) => b.shifts - a.shifts`:
`a` may come before `b` iff `b.shifts ≤ a.shifts`. -/
def shiftGe (a b : TopWorkPlaces) : Prop := b.shifts ≤ a.shifts

instance : DecidableRel shiftGe := fun a b => Nat.decLe b.shifts a.shifts

instance : IsTotal TopWorkPlaces shiftGe := ⟨fun a b => Nat.le_total b.shifts a.shifts⟩

instance : IsTrans TopWorkPlaces shiftGe := ⟨fun _ _ _ hab hbc => le_trans hbc hab⟩

/-- `getTopThreeWorkplaces(workplaces, shiftCounts)`:
map to `(name, shifts)`, stable-sort descending by `shifts`, `slice(0, 3)`. -/
def getTopThreeWorkplaces (workplaces : List Workplace) (shiftCounts : ShiftRecord) :
    List TopWorkPlaces :=
  ((workplaces.map (rankWorkplace shiftCounts)).insertionSort shiftGe).take 3

/-- Ways a retrieval can fail outright (`lastValueFrom(httpService.get url)`
rejecting): connection error, non-2xx status, unparseable body.  All are
caught by the single `try/catch` in `getTopWorkplaces`. -/
inductive FetchError where
  | connectionError
  | nonSuccessStatus
  | unparseableBody
deriving DecidableEq, Repr

/-- Outcome of `fetchData<T>`: an outright failure (`Except.error`), a
response whose body lacks the expected `data` envelope field so that
`response.data.data` is `undefined` (`Except.ok none`), or the decoded
collection (`Except.ok (some _)`). -/
abbrev FetchOutcome (α : Type) := Except FetchError (Option α)

/-- `getTopWorkplaces()`, parameterised by the outcomes of the two
retrievals.  Only when both yield a present collection does the aggregation
run.  Every other combination ends in the `catch` branch returning `[]`:
a rejected promise propagates out of `Promise.all`, and an `undefined`
collection makes `shifts.reduce` (resp. `workplaces.map`) throw a
`TypeError` inside the same `try`. -/
def getTopWorkplaces (workplacesRes : FetchOutcome (List Workplace))
    (shiftsRes : FetchOutcome (List Shift)) : List TopWorkPlaces :=
  match workplacesRes, shiftsRes with
  | .ok (some workplaces), .ok (some shifts) =>
      getTopThreeWorkplaces workplaces (countShifts shifts)
  | _, _ => []

/-- A retrieval outcome that does not deliver a collection. -/
def retrievalBad {α : Type} : FetchOutcome α → Bool
  | .ok (some _) => false
  | _ => true

/-!
A small store model for the frame property: JavaScript arrays are mutable
references, and `Array.prototype.sort` mutates its receiver in place.  The
aggregation's receiver for `.sort` is the fresh array produced by `.map`, so
the input arrays must come out of the run unchanged.  Arrays live in a heap
indexed by allocation order. -/

/-- A JavaScript value stored in one of the arrays the aggregation touches. -/
inductive JsObj where
  | wp (w : Workplace)
  | sh (s : Shift)
  | ranked (r : TopWorkPlaces)
deriving DecidableEq, Repr

/-- The array store: arrays identified by allocation index. -/
abbrev Heap := List (List JsObj)

/-- Read the contents of the array at reference `r`. -/
def readArr (h : Heap) (r : Nat) : List JsObj := h.getD r []

/-- Allocate a fresh array (what `.map` and `.slice` do), returning the new
heap and the new reference. -/
def allocArr (h : Heap) (a : List JsObj) : Heap × Nat := (h ++ [a], h.length)

/-- Overwrite the array at reference `r` in place (what `.sort` does to its
receiver). -/
def writeArr (h : Heap) (r : Nat) (a : List JsObj) : Heap := h.set r a

/-- Project a stored shift record. -/
def shiftOf : JsObj → Option Shift
  | .sh s => some s
  | _ => none

/-- Project a stored ranked record. -/
def rankedOf : JsObj → Option TopWorkPlaces
  | .ranked r => some r
  | _ => none

/-- The `.map` callback on stored values: a workplace record becomes a ranked
record; nothing else occurs in the workplace array. -/
def jsRank (shiftCounts : ShiftRecord) : JsObj → JsObj
  | .wp w => .ranked (rankWorkplace shiftCounts w)
  | o => o

/-- The comparator's sort key on stored values. -/
def objShifts : JsObj → Nat
  | .ranked r => r.shifts
  | _ => 0

/-- The comparator relation on stored values. -/
def objGe (a b : JsObj) : Prop := objShifts b ≤ objShifts a

instance : DecidableRel objGe := fun a b => Nat.decLe (objShifts b) (objShifts a)

/-- `countShifts` against the store: the `reduce` reads the shift array and
builds a fresh record object; it writes to no array. -/
def countShiftsH (h : Heap) (shiftsRef : Nat) : Heap × ShiftRecord :=
  (h, countShifts ((readArr h shiftsRef).filterMap shiftOf))

/-- `getTopThreeWorkplaces` against the store: `.map` allocates a fresh
array from the workplace array, `.sort` overwrites that fresh array in place
with its stable-sorted permutation, `.slice(0, 3)` copies the first three
entries out of it. -/
def getTopThreeWorkplacesH (h : Heap) (workplacesRef : Nat) (shiftCounts : ShiftRecord) :
    Heap × List TopWorkPlaces :=
  let res := allocArr h ((readArr h workplacesRef).map (jsRank shiftCounts))
  let h2 := writeArr res.1 res.2 ((readArr res.1 res.2).insertionSort objGe)
  (h2, ((readArr h2 res.2).take 3).filterMap rankedOf)

/-- The aggregation phase of `getTopWorkplaces` against the store:
`countShifts` followed by `getTopThreeWorkplaces`. -/
def runAggregationH (h : Heap) (workplacesRef shiftsRef : Nat) : Heap × List TopWorkPlaces :=
  let res := countShiftsH h shiftsRef
  getTopThreeWorkplacesH res.1 workplacesRef res.2

/-!
Core lemmas about the counting fold and the stable sort.
-/

/-- Running the counting fold and reading a key with the `|| 0` default adds
the number of matching shift records to what the accumulator already held. -/
theorem countShiftsAux_getD (ss : List Shift) : ∀ (acc : ShiftRecord) (k : String),
    (countShiftsAux acc ss k).getD 0
      = (acc k).getD 0 + (ss.filter (fun s => s.workplaceId == k)).length := by
  induction ss with
  | nil => intro acc k; simp [countShiftsAux]
  | cons s rest ih =>
      intro acc k
      rw [countShiftsAux, ih]
      by_cases hk : k = s.workplaceId
      · subst hk
        simp [List.filter_cons]
        omega
      · have hks : ¬ (s.workplaceId = k) := fun h => hk h.symm
        simp [List.filter_cons, hk, hks]

/-- The count read for key `k` is the number of shift records whose
`workplaceId` equals `k`. -/
theorem countShifts_getD (ss : List Shift) (k : String) :
    (countShifts ss k).getD 0 = (ss.filter (fun s => s.workplaceId == k)).length := by
  rw [countShifts, countShiftsAux_getD]
  simp

/-- The counting fold reads nothing but `workplaceId` from a shift record. -/
theorem countShiftsAux_workplaceId_congr (ss₁ : List Shift) :
    ∀ (ss₂ : List Shift) (acc : ShiftRecord),
      ss₁.map Shift.workplaceId = ss₂.map Shift.workplaceId →
      countShiftsAux acc ss₁ = countShiftsAux acc ss₂ := by
  induction ss₁ with
  | nil =>
      intro ss₂ acc h
      have : ss₂ = [] := by simpa using (List.map_eq_nil_iff.mp h.symm)
      simp [this]
  | cons s rest ih =>
      intro ss₂ acc h
      cases ss₂ with
      | nil => simp at h
      | cons s₂ rest₂ =>
          simp only [List.map_cons, List.cons.injEq] at h
          rw [countShiftsAux, countShiftsAux, h.1]
          exact ih rest₂ _ h.2

/-- `countShifts` depends only on the `workplaceId` projection of its input. -/
theorem countShifts_workplaceId_congr (ss₁ ss₂ : List Shift)
    (h : ss₁.map Shift.workplaceId = ss₂.map Shift.workplaceId) :
    countShifts ss₁ = countShifts ss₂ :=
  countShiftsAux_workplaceId_congr ss₁ ss₂ _ h

/-- Inserting into a list moves the new element past records with strictly
larger counts only, so each equal-count class keeps its order: filtering one
count class out of the insertion result is the same as consing first. -/
theorem filter_orderedInsert_shiftGe (c : Nat) (x : TopWorkPlaces) (l : List TopWorkPlaces) :
    (List.orderedInsert shiftGe x l).filter (fun r => r.shifts == c)
      = ((x :: l).filter (fun r => r.shifts == c)) := by
  induction l with
  | nil => rfl
  | cons y ys ih =>
      rw [List.orderedInsert]
      by_cases hxy : shiftGe x y
      · rw [if_pos hxy]
      · rw [if_neg hxy]
        by_cases hx : x.shifts = c
        · have hy : ¬ (y.shifts = c) := by
            unfold shiftGe at hxy
            omega
          simp [List.filter_cons, hx, hy] at ih ⊢
          exact ih
        · simp [List.filter_cons, hx] at ih ⊢
          rw [ih]

/-- Reading an old reference is unaffected by an allocation. -/
theorem readArr_append_lt (h : Heap) (a : List JsObj) (r : Nat) (hr : r < h.length) :
    readArr (h ++ [a]) r = readArr h r := by
  simp only [readArr, List.getD_eq_getElem?_getD]
  rw [List.getElem?_append]
  simp [hr]

/-- Reading the reference just allocated yields the allocated contents. -/
theorem readArr_append_self (h : Heap) (a : List JsObj) :
    readArr (h ++ [a]) h.length = a := by
  simp [readArr, List.getD_eq_getElem?_getD]

/-- Writing one array leaves every other array unchanged. -/
theorem readArr_writeArr_ne (h : Heap) (r r' : Nat) (a : List JsObj) (hne : r ≠ r') :
    readArr (writeArr h r a) r' = readArr h r' := by
  simp [readArr, writeArr, List.getD_eq_getElem?_getD, List.getElem?_set_ne hne]

/-- Reading back an in-range write yields the written contents. -/
theorem readArr_writeArr_self (h : Heap) (r : Nat) (a : List JsObj) (hr : r < h.length) :
    readArr (writeArr h r a) r = a := by
  simp [readArr, writeArr, List.getD_eq_getElem?_getD, List.getElem?_set_self, hr]

/-- The join-sort-slice phase writes only to the array freshly allocated by
`.map`: every pre-existing array reads back unchanged. -/
theorem getTopThreeWorkplacesH_frame (h : Heap) (workplacesRef : Nat) (sc : ShiftRecord)
    (r : Nat) (hr : r < h.length) :
    readArr (getTopThreeWorkplacesH h workplacesRef sc).1 r = readArr h r := by
  show readArr (writeArr (h ++ [_]) h.length _) r = readArr h r
  rw [readArr_writeArr_ne _ _ _ _ (by omega)]
  exact readArr_append_lt _ _ _ hr

/-- Stability of the sort: each equal-count class of the sorted sequence is
exactly the equal-count class of the input, in input order. -/
theorem filter_insertionSort_shiftGe (c : Nat) (l : List TopWorkPlaces) :
    (l.insertionSort shiftGe).filter (fun r => r.shifts == c)
      = l.filter (fun r => r.shifts == c) := by
  induction l with
  | nil => rfl
  | cons x xs ih =>
      rw [List.insertionSort, filter_orderedInsert_shiftGe,
        List.filter_cons, List.filter_cons, ih]

/-- On ranked-only arrays the stored-value comparator coincides with the
record comparator, insertion by insertion. -/
theorem orderedInsert_map_ranked (x : TopWorkPlaces) (l : List TopWorkPlaces) :
    List.orderedInsert objGe (.ranked x) (l.map JsObj.ranked)
      = (List.orderedInsert shiftGe x l).map JsObj.ranked := by
  induction l with
  | nil => rfl
  | cons y ys ih =>
      simp only [List.map_cons, List.orderedInsert]
      by_cases hxy : shiftGe x y
      · have hxy' : objGe (JsObj.ranked x) (JsObj.ranked y) := hxy
        rw [if_pos hxy', if_pos hxy, List.map_cons, List.map_cons]
      · have hxy' : ¬ objGe (JsObj.ranked x) (JsObj.ranked y) := hxy
        rw [if_neg hxy', if_neg hxy, ih, List.map_cons]

/-- Sorting a ranked-only array is sorting the underlying records. -/
theorem insertionSort_map_ranked (l : List TopWorkPlaces) :
    (l.map JsObj.ranked).insertionSort objGe
      = (l.insertionSort shiftGe).map JsObj.ranked := by
  induction l with
  | nil => rfl
  | cons x xs ih => simp only [List.map_cons, List.insertionSort, ih, orderedInsert_map_ranked]

/-- The store-level run computes exactly the pure pipeline whenever the two
references hold the workplace array and the shift array. -/
theorem runAggregationH_spec (h : Heap) (workplacesRef shiftsRef : Nat)
    (ws : List Workplace) (ss : List Shift)
    (hw : readArr h workplacesRef = ws.map JsObj.wp)
    (hs : readArr h shiftsRef = ss.map JsObj.sh) :
    (runAggregationH h workplacesRef shiftsRef).2
      = getTopThreeWorkplaces ws (countShifts ss) := by
  simp only [runAggregationH, countShiftsH, getTopThreeWorkplacesH, allocArr, hw, hs]
  rw [readArr_append_self]
  rw [readArr_writeArr_self _ _ _ (by simp)]
  have hshifts : (List.map JsObj.sh ss).filterMap shiftOf = ss := by
    rw [List.filterMap_map]
    show List.filterMap some ss = ss
    exact List.filterMap_some ss
  have hmapped : (List.map JsObj.wp ws).map (jsRank (countShifts ss))
      = (ws.map (rankWorkplace (countShifts ss))).map JsObj.ranked := by
    simp only [List.map_map]
    rfl
  rw [hshifts, hmapped, insertionSort_map_ranked, ← List.map_take, List.filterMap_map]
  show List.filterMap some _ = getTopThreeWorkplaces ws (countShifts ss)
  rw [List.filterMap_some]
  rfl

/-!
The claims.
-/

/-- Claim C1: for every workplace record `w` in the retrieved workplace
collection, the ranked record produced for `w` in the pre-truncation joined
sequence has `shifts` equal to the number of shift records whose
`workplaceId` equals `w.id`, and `0` when no shift record references
`w.id`. -/
theorem claim_C1_count_correctness (ws : List Workplace) (ss : List Shift)
    (i : Nat) (hi : i < ws.length) :
    (ws.map (rankWorkplace (countShifts ss))).get ⟨i, by simpa using hi⟩
        = { name := (ws.get ⟨i, hi⟩).name,
            shifts := (ss.filter (fun s => s.workplaceId == (ws.get ⟨i, hi⟩).id)).length } ∧
      ((∀ s ∈ ss, s.workplaceId ≠ (ws.get ⟨i, hi⟩).id) →
        ((ws.map (rankWorkplace (countShifts ss))).get ⟨i, by simpa using hi⟩).shifts = 0) := by
  have hget : (ws.map (rankWorkplace (countShifts ss))).get ⟨i, by simpa using hi⟩
      = rankWorkplace (countShifts ss) (ws.get ⟨i, hi⟩) := by
    simp
  constructor
  · rw [hget, rankWorkplace, countShifts_getD]
  · intro hnone
    have hzero : ss.filter (fun s => s.workplaceId == (ws.get ⟨i, hi⟩).id) = [] :=
      List.filter_eq_nil_iff.mpr (fun s hs => by simpa using hnone s hs)
    rw [hget]
    show (countShifts ss (ws.get ⟨i, hi⟩).id).getD 0 = 0
    rw [countShifts_getD, hzero]
    rfl

/-- Witness for C1 at the spec's first scenario: the entry produced for
`Beta` counts its two shifts, and `Delta`, referenced by no shift, gets
count `0`. -/
theorem claim_C1_count_correctness_witness :
    ((([⟨"A", "Alpha"⟩, ⟨"B", "Beta"⟩, ⟨"D", "Delta"⟩] : List Workplace).map
        (rankWorkplace (countShifts [⟨"A", "w1"⟩, ⟨"B", "w2"⟩, ⟨"B", "w3"⟩]))).get ⟨2, by decide⟩).shifts
      = 0 :=
  (claim_C1_count_correctness [⟨"A", "Alpha"⟩, ⟨"B", "Beta"⟩, ⟨"D", "Delta"⟩]
      [⟨"A", "w1"⟩, ⟨"B", "w2"⟩, ⟨"B", "w3"⟩] 2 (by decide)).2 (by decide)

/-- Claim C2: whenever both retrievals succeed, the returned sequence has
length exactly `min W 3` where `W` is the number of workplace records. -/
theorem claim_C2_cardinality (ws : List Workplace) (ss : List Shift) :
    (getTopWorkplaces (.ok (some ws)) (.ok (some ss))).length = min ws.length 3 := by
  show (getTopThreeWorkplaces ws (countShifts ss)).length = min ws.length 3
  rw [getTopThreeWorkplaces, List.length_take, List.length_insertionSort, List.length_map,
    Nat.min_comm]

/-- Claim C3: the descending sort is stable.  For every count value `c`, the
equal-count class of the returned sequence is an initial segment of the
equal-count class of the joined sequence, which is in original
workplace-collection order — so two workplaces with equal counts keep their
original relative order in the result. -/
theorem claim_C3_stability (ws : List Workplace) (ss : List Shift) (c : Nat) :
    ∃ rest,
      (ws.map (rankWorkplace (countShifts ss))).filter (fun r => r.shifts == c)
        = (getTopWorkplaces (.ok (some ws)) (.ok (some ss))).filter (fun r => r.shifts == c)
            ++ rest := by
  refine ⟨(((ws.map (rankWorkplace (countShifts ss))).insertionSort shiftGe).drop 3).filter
      (fun r => r.shifts == c), ?_⟩
  have hres : getTopWorkplaces (.ok (some ws)) (.ok (some ss))
      = ((ws.map (rankWorkplace (countShifts ss))).insertionSort shiftGe).take 3 := rfl
  rw [hres, ← List.filter_append, List.take_append_drop, filter_insertionSort_shiftGe]

/-- Claim C4: the returned sequence is sorted by count descending: every
adjacent pair `(a, b)` satisfies `b.shifts ≤ a.shifts`. -/
theorem claim_C4_sorted_descending (ws : List Workplace) (ss : List Shift) :
    List.Chain' (fun a b => b.shifts ≤ a.shifts)
      (getTopWorkplaces (.ok (some ws)) (.ok (some ss))) := by
  have hres : getTopWorkplaces (.ok (some ws)) (.ok (some ss))
      = ((ws.map (rankWorkplace (countShifts ss))).insertionSort shiftGe).take 3 := rfl
  rw [hres]
  exact ((List.sorted_insertionSort shiftGe _).sublist (List.take_sublist 3 _)).chain'

/-- Claim C5: orphan shift records (whose `workplaceId` matches no workplace
record's id) never affect the output — removing all of them leaves the
output unchanged — and every returned record is derived from a workplace
record, never from an orphan shift. -/
theorem claim_C5_orphan_exclusion (ws : List Workplace) (ss : List Shift) :
    getTopWorkplaces (.ok (some ws))
        (.ok (some (ss.filter (fun s => ws.any (fun w => w.id == s.workplaceId)))))
      = getTopWorkplaces (.ok (some ws)) (.ok (some ss)) ∧
    ∀ r ∈ getTopWorkplaces (.ok (some ws)) (.ok (some ss)),
      ∃ w, w ∈ ws ∧ r = rankWorkplace (countShifts ss) w := by
  constructor
  · have hcount : ∀ w ∈ ws,
        rankWorkplace
            (countShifts (ss.filter (fun s => ws.any (fun w' => w'.id == s.workplaceId)))) w
          = rankWorkplace (countShifts ss) w := by
      intro w hw
      rw [rankWorkplace, rankWorkplace, countShifts_getD, countShifts_getD,
        List.filter_filter]
      have hpt : ∀ s ∈ ss,
          ((s.workplaceId == w.id) && ws.any (fun w' => w'.id == s.workplaceId))
            = (s.workplaceId == w.id) := by
        intro s _
        by_cases hsw : s.workplaceId = w.id
        · have hany : ws.any (fun w' => w'.id == s.workplaceId) = true :=
            List.any_eq_true.mpr ⟨w, hw, by simp [hsw]⟩
          rw [hany, Bool.and_true]
        · simp [hsw]
      rw [List.filter_congr hpt]
    show getTopThreeWorkplaces ws _ = getTopThreeWorkplaces ws _
    rw [getTopThreeWorkplaces, getTopThreeWorkplaces, List.map_congr_left hcount]
  · intro r hr
    have hmem : r ∈ ws.map (rankWorkplace (countShifts ss)) := by
      have h₁ : r ∈ (ws.map (rankWorkplace (countShifts ss))).insertionSort shiftGe :=
        List.mem_of_mem_take hr
      exact (List.mem_insertionSort shiftGe).mp h₁
    rcases List.mem_map.mp hmem with ⟨w, hw, hrw⟩
    exact ⟨w, hw, hrw.symm⟩

/-- Witness for C5: with one orphan shift (`workplaceId = "X"`), filtering
it out leaves the output unchanged, and the single returned record is the
one derived from workplace `"A"`. -/
theorem claim_C5_orphan_exclusion_witness :
    getTopWorkplaces (.ok (some [⟨"A", "Alpha"⟩]))
        (.ok (some (([⟨"A", "w1"⟩, ⟨"X", "w2"⟩] : List Shift).filter
          (fun s => ([⟨"A", "Alpha"⟩] : List Workplace).any (fun w => w.id == s.workplaceId)))))
      = getTopWorkplaces (.ok (some [⟨"A", "Alpha"⟩])) (.ok (some [⟨"A", "w1"⟩, ⟨"X", "w2"⟩])) ∧
    ∃ w, w ∈ ([⟨"A", "Alpha"⟩] : List Workplace) ∧
      (⟨"Alpha", 1⟩ : TopWorkPlaces)
        = rankWorkplace (countShifts [⟨"A", "w1"⟩, ⟨"X", "w2"⟩]) w :=
  ⟨(claim_C5_orphan_exclusion [⟨"A", "Alpha"⟩] [⟨"A", "w1"⟩, ⟨"X", "w2"⟩]).1,
    (claim_C5_orphan_exclusion [⟨"A", "Alpha"⟩] [⟨"A", "w1"⟩, ⟨"X", "w2"⟩]).2
      ⟨"Alpha", 1⟩ (by decide)⟩

/-- Claim C6: if either retrieval fails outright or returns a payload
missing the `data` envelope field, `getTopWorkplaces` returns the empty
sequence; being a total function of the two outcomes, it signals no error
to its caller. -/
theorem claim_C6_failure_containment (wres : FetchOutcome (List Workplace))
    (sres : FetchOutcome (List Shift))
    (hbad : retrievalBad wres = true ∨ retrievalBad sres = true) :
    getTopWorkplaces wres sres = [] := by
  match wres, sres with
  | .ok (some _), .ok (some _) => simp [retrievalBad] at hbad
  | .error _, _ => rfl
  | .ok none, _ => rfl
  | .ok (some _), .error _ => rfl
  | .ok (some _), .ok none => rfl

/-- Witness for C6: a connection error on the workplace retrieval yields the
empty result even though the shift retrieval succeeded. -/
theorem claim_C6_failure_containment_witness :
    retrievalBad (Except.error FetchError.connectionError : FetchOutcome (List Workplace))
        = true ∧
    getTopWorkplaces (.error .connectionError) (.ok (some [⟨"A", "w1"⟩])) = [] :=
  ⟨rfl, claim_C6_failure_containment (.error .connectionError) (.ok (some [⟨"A", "w1"⟩]))
    (Or.inl rfl)⟩

/-- Claim C7: the output depends only on each shift record's `workplaceId`:
two shift collections agreeing pointwise on `workplaceId` (differing
arbitrarily in `workerId`) produce identical output for any fixed workplace
collection. -/
theorem claim_C7_workerId_irrelevant (ws : List Workplace) (ss₁ ss₂ : List Shift)
    (h : ss₁.map Shift.workplaceId = ss₂.map Shift.workplaceId) :
    getTopWorkplaces (.ok (some ws)) (.ok (some ss₁))
      = getTopWorkplaces (.ok (some ws)) (.ok (some ss₂)) := by
  show getTopThreeWorkplaces ws (countShifts ss₁) = getTopThreeWorkplaces ws (countShifts ss₂)
  rw [countShifts_workplaceId_congr ss₁ ss₂ h]

/-- Witness for C7: changing only a `workerId` leaves the output
unchanged. -/
theorem claim_C7_workerId_irrelevant_witness :
    getTopWorkplaces (.ok (some [⟨"A", "Alpha"⟩])) (.ok (some [⟨"A", "w1"⟩]))
      = getTopWorkplaces (.ok (some [⟨"A", "Alpha"⟩])) (.ok (some [⟨"A", "w9"⟩])) :=
  claim_C7_workerId_irrelevant [⟨"A", "Alpha"⟩] [⟨"A", "w1"⟩] [⟨"A", "w9"⟩] rfl

/-- Claim C8: the aggregation mutates neither input array.  In the array
store, running the counting phase and the join-sort-slice phase leaves the
workplace array and the shift array — contents and order — exactly as they
were: the in-place sort hits only the fresh array built by `.map`. -/
theorem claim_C8_inputs_not_mutated (h : Heap) (workplacesRef shiftsRef : Nat)
    (hw : workplacesRef < h.length) (hs : shiftsRef < h.length) :
    readArr (runAggregationH h workplacesRef shiftsRef).1 workplacesRef
        = readArr h workplacesRef ∧
      readArr (runAggregationH h workplacesRef shiftsRef).1 shiftsRef
        = readArr h shiftsRef :=
  ⟨getTopThreeWorkplacesH_frame h workplacesRef _ workplacesRef hw,
    getTopThreeWorkplacesH_frame h workplacesRef _ shiftsRef hs⟩

/-- Witness for C8 on a concrete two-array store. -/
theorem claim_C8_inputs_not_mutated_witness :
    readArr (runAggregationH [[.wp ⟨"A", "Alpha"⟩], [.sh ⟨"A", "w1"⟩]] 0 1).1 0
        = readArr [[.wp ⟨"A", "Alpha"⟩], [.sh ⟨"A", "w1"⟩]] 0 ∧
      readArr (runAggregationH [[.wp ⟨"A", "Alpha"⟩], [.sh ⟨"A", "w1"⟩]] 0 1).1 1
        = readArr [[.wp ⟨"A", "Alpha"⟩], [.sh ⟨"A", "w1"⟩]] 1 :=
  claim_C8_inputs_not_mutated [[.wp ⟨"A", "Alpha"⟩], [.sh ⟨"A", "w1"⟩]] 0 1
    (by decide) (by decide)

/-- Claim C10: with duplicate workplace ids the behaviour is still defined:
the joined sequence has exactly one entry per workplace record, and records
sharing an id all receive the same count — the total number of shift
records referencing that id. -/
theorem claim_C10_duplicate_ids (ws : List Workplace) (ss : List Shift) :
    (ws.map (rankWorkplace (countShifts ss))).length = ws.length ∧
    ∀ i j, (hi : i < ws.length) → (hj : j < ws.length) →
      (ws.get ⟨i, hi⟩).id = (ws.get ⟨j, hj⟩).id →
      ((ws.map (rankWorkplace (countShifts ss))).get ⟨i, by simpa using hi⟩).shifts
          = ((ws.map (rankWorkplace (countShifts ss))).get ⟨j, by simpa using hj⟩).shifts ∧
        ((ws.map (rankWorkplace (countShifts ss))).get ⟨i, by simpa using hi⟩).shifts
          = (ss.filter (fun s => s.workplaceId == (ws.get ⟨i, hi⟩).id)).length := by
  refine ⟨List.length_map ws _, ?_⟩
  intro i j hi hj hid
  have hgi : ((ws.map (rankWorkplace (countShifts ss))).get ⟨i, by simpa using hi⟩).shifts
      = (countShifts ss (ws.get ⟨i, hi⟩).id).getD 0 := by
    simp [rankWorkplace]
  have hgj : ((ws.map (rankWorkplace (countShifts ss))).get ⟨j, by simpa using hj⟩).shifts
      = (countShifts ss (ws.get ⟨j, hj⟩).id).getD 0 := by
    simp [rankWorkplace]
  refine ⟨?_, by rw [hgi, countShifts_getD]⟩
  rw [hgi, hgj, hid]

/-- Witness for C10: two records share id `"A"`; each yields its own entry
and both carry the full count of the two `"A"` shifts. -/
theorem claim_C10_duplicate_ids_witness :
    (([⟨"A", "Alpha"⟩, ⟨"A", "AlphaBis"⟩] : List Workplace).map
        (rankWorkplace (countShifts [⟨"A", "w1"⟩, ⟨"A", "w2"⟩]))).length = 2 ∧
    ((([⟨"A", "Alpha"⟩, ⟨"A", "AlphaBis"⟩] : List Workplace).map
        (rankWorkplace (countShifts [⟨"A", "w1"⟩, ⟨"A", "w2"⟩]))).get ⟨0, by decide⟩).shifts
      = ((([⟨"A", "Alpha"⟩, ⟨"A", "AlphaBis"⟩] : List Workplace).map
        (rankWorkplace (countShifts [⟨"A", "w1"⟩, ⟨"A", "w2"⟩]))).get ⟨1, by decide⟩).shifts :=
  ⟨(claim_C10_duplicate_ids [⟨"A", "Alpha"⟩, ⟨"A", "AlphaBis"⟩] [⟨"A", "w1"⟩, ⟨"A", "w2"⟩]).1,
    ((claim_C10_duplicate_ids [⟨"A", "Alpha"⟩, ⟨"A", "AlphaBis"⟩]
        [⟨"A", "w1"⟩, ⟨"A", "w2"⟩]).2 0 1 (by decide) (by decide) rfl).1⟩

end TopWorkplacesService
